import Mathlib

/-!
Verification development for the reva decomposed-filesystem storage engine.

The definitions below are shallow embeddings of the Go source:
* Decomposedfs.GetQuota (decomposedfs core),
* the appprovider HTTP handler handleNew,
* the JSON share manager's get/GetShare,
* the upload session store (CreateNodeForUpload, initNewNode, updateExistingNode),
* the asynchronous post-processing consumer (Postprocessing).

Machine integers are modelled as Nat/Int with explicit two-complement wrapping
where the Go code can overflow.  Fallible operations take their syscall/RPC
outcomes from an explicit environment record and return Except/Option values.
-/

/- ### Section 1: Decomposedfs.GetQuota -/

/-- The quota extended attribute as classified by the switch in GetQuota:
the three sentinel strings (QuotaUncalculated, QuotaUnknown, QuotaUnlimited),
a string that strconv.ParseUint parses to a uint64, or an unparseable string. -/
inductive QuotaValue where
  | uncalculated
  | unknownQuota
  | unlimited
  | numeric (total : Nat)
  | malformed
  deriving DecidableEq, Repr

/-- Result triple of GetQuota: total, inUse, remaining (all uint64). -/
structure QuotaResult where
  total : Nat
  inUse : Nat
  remaining : Nat
  deriving DecidableEq, Repr

/-- Shallow embedding of the tail of Decomposedfs.GetQuota: given the quota
attribute classification, the tree size ri.Size and the available size
returned by node.GetAvailableSize, compute the returned triple.  "none" is the
error return for an unparseable quota string. -/
def getQuotaTail (quota : QuotaValue) (riSize availableSize : Nat) : Option QuotaResult :=
  match quota with
  | .uncalculated => some ⟨0, riSize, availableSize⟩
  | .unknownQuota => some ⟨0, riSize, availableSize⟩
  | .unlimited => some ⟨0, riSize, availableSize⟩
  | .malformed => none
  | .numeric total =>
      let remaining :=
        if total ≤ availableSize then
          if riSize ≥ total then 0 else total - riSize
        else availableSize
      some ⟨total, riSize, remaining⟩

/- ### Section 2: appprovider handleNew -/

/-- Error classes passed to writeError by the appprovider service. -/
inductive AppErrorCode where
  | serverError
  | unimplemented
  | invalidParameter
  | notFoundCode
  | alreadyExists
  deriving DecidableEq, Repr

/-- Response of handleNew: either writeError with a code and message, or the
JSON success payload. -/
inductive NewResponse where
  | errResp (code : AppErrorCode) (msg : String)
  | okResp
  deriving DecidableEq, Repr

/-- The error code of a response, if it is an error. -/
def respCode : NewResponse → Option AppErrorCode
  | .errResp c _ => some c
  | .okResp => none

/-- Outbound calls handleNew can issue after its parameter validation. -/
inductive GatewayCall where
  | statParent
  | statFile
  | initiateUpload
  | putUpload
  | statCreated
  deriving DecidableEq, Repr

/-- CS3 RPC status codes distinguished by handleNew. -/
inductive RpcCode where
  | okCode
  | notFound
  | otherCode
  deriving DecidableEq, Repr

/-- Environment of one handleNew request: outcome of the gateway client
construction and of each downstream call. -/
structure NewEnv where
  clientOk : Bool
  parentIdValid : Bool
  statParentErr : Bool
  statParentCode : RpcCode
  parentIsContainer : Bool
  statFileErr : Bool
  statFileCode : RpcCode
  initUploadErr : Bool
  initUploadCode : RpcCode
  putErr : Bool
  putStatus : Nat
  statCreatedErr : Bool
  statCreatedCode : RpcCode
  createdIsFile : Bool
  deriving DecidableEq, Repr

/-- Index of the last slash in a character list, if any. -/
def lastSlashIdx : List Char → Option Nat
  | [] => none
  | c :: cs =>
    match lastSlashIdx cs with
    | some i => some (i + 1)
    | none => if c = '/' then some 0 else none

/-- Shallow embedding of Go path.Split: split after the final slash,
returning (dir, file); with no slash the dir part is empty. -/
def pathSplit (p : String) : String × String :=
  match lastSlashIdx p.data with
  | none => ("", p)
  | some i => (⟨p.data.take (i + 1)⟩, ⟨p.data.drop (i + 1)⟩)

/-- HTTP 200 and 403 as distinguished by handleNew after the PUT. -/
def httpStatusOK : Nat := 200

def httpStatusForbidden : Nat := 403

/-- Shallow embedding of appprovider handleNew.  The three query parameters
are template, parent_container_id and filename; the environment carries the
outcomes of the gateway client construction and of each downstream request.
Returns the response written plus the list of gateway/data calls issued. -/
def handleNew (env : NewEnv) (template parentContainerId filename : String) :
    NewResponse × List GatewayCall :=
  if env.clientOk = false then
    (.errResp .serverError "error getting grpc gateway client", [])
  else if template ≠ "" then
    (.errResp .unimplemented "template is not implemented", [])
  else if parentContainerId = "" then
    (.errResp .invalidParameter "missing parent container ID", [])
  else if env.parentIdValid = false then
    (.errResp .invalidParameter "invalid parent container ID", [])
  else if filename = "" then
    (.errResp .invalidParameter "missing filename", [])
  else if (pathSplit filename).1 ≠ "" ∨ (pathSplit filename).2 ≠ filename then
    (.errResp .invalidParameter "the filename must not contain a path segment", [])
  else if env.statParentErr then
    (.errResp .serverError "error sending a grpc stat request", [.statParent])
  else if env.statParentCode ≠ .okCode then
    (.errResp .notFoundCode "the parent container is not accessible or does not exist", [.statParent])
  else if env.parentIsContainer = false then
    (.errResp .invalidParameter "the parent container id does not point to a container", [.statParent])
  else if env.statFileErr then
    (.errResp .serverError "failed to stat the file", [.statParent, .statFile])
  else if env.statFileCode = .okCode then
    (.errResp .alreadyExists "the file already exists", [.statParent, .statFile])
  else if env.statFileCode ≠ .notFound then
    (.errResp .serverError "statting the file returned unexpected status code", [.statParent, .statFile])
  else if env.initUploadErr then
    (.errResp .serverError "error calling InitiateFileUpload", [.statParent, .statFile, .initiateUpload])
  else if env.initUploadCode ≠ .okCode then
    (.errResp .serverError "error calling InitiateFileUpload", [.statParent, .statFile, .initiateUpload])
  else if env.putErr then
    (.errResp .serverError "failed to create the file", [.statParent, .statFile, .initiateUpload, .putUpload])
  else if env.putStatus ≠ httpStatusForbidden ∧ env.putStatus ≠ httpStatusOK then
    (.errResp .serverError "failed to create the file", [.statParent, .statFile, .initiateUpload, .putUpload])
  else if env.statCreatedErr then
    (.errResp .serverError "statting the created file failed", [.statParent, .statFile, .initiateUpload, .putUpload, .statCreated])
  else if env.statCreatedCode ≠ .okCode then
    (.errResp .serverError "statting the created file failed", [.statParent, .statFile, .initiateUpload, .putUpload, .statCreated])
  else if env.createdIsFile = false then
    (.errResp .invalidParameter "the given file id does not point to a file", [.statParent, .statFile, .initiateUpload, .putUpload, .statCreated])
  else
    (.okResp, [.statParent, .statFile, .initiateUpload, .putUpload, .statCreated])

/- ### Section 3: JSON share manager (get / GetShare) -/

/-- A CS3 user id; utils.UserEqual compares Idp and OpaqueId. -/
structure UserIdM where
  idp : String
  opaqueId : String
  deriving DecidableEq, Repr

/-- A CS3 resource id; utils.ResourceIDEqual compares StorageId and OpaqueId. -/
structure ResourceIdM where
  storageId : String
  opaqueId : String
  deriving DecidableEq, Repr

/-- A share grantee: a concrete user or a group. -/
inductive GranteeM where
  | user
      (id : UserIdM)
  | group
      (groupId : String)
  deriving DecidableEq, Repr

/-- A stored collaboration share: id, resource, owner, creator, grantee. -/
structure ShareM where
  shareId : String
  resourceId : ResourceIdM
  owner : UserIdM
  creator : UserIdM
  grantee : GranteeM
  deriving DecidableEq, Repr

/-- The user taken from the request context, with group memberships. -/
structure UserM where
  uid : UserIdM
  groups : List String
  deriving DecidableEq, Repr

/-- A ShareKey reference: owner, resource id and grantee. -/
structure ShareKeyM where
  owner : UserIdM
  resourceId : ResourceIdM
  grantee : GranteeM
  deriving DecidableEq, Repr

/-- A ShareReference: by id, by key, or with neither oneof member set. -/
inductive ShareRefM where
  | byId (opaqueId : String)
  | byKey (key : ShareKeyM)
  | unset
  deriving DecidableEq, Repr

/-- Modelled from the spec: the protobuf text rendering ShareId.String()
used as the NotFound message; an injective encoding of the inner id. -/
def shareIdText (opaqueId : String) : String :=
  "opaque_id:\"" ++ opaqueId ++ "\" "

/-- Modelled from the spec: protobuf text rendering of a grantee. -/
def granteeText : GranteeM → String
  | .user id => "type:GRANTEE_TYPE_USER id:<idp:\"" ++ id.idp ++ "\" opaque_id:\"" ++ id.opaqueId ++ "\" > "
  | .group g => "type:GRANTEE_TYPE_GROUP id:<opaque_id:\"" ++ g ++ "\" > "

/-- Modelled from the spec: protobuf text rendering ShareKey.String(). -/
def shareKeyText (k : ShareKeyM) : String :=
  "owner:<idp:\"" ++ k.owner.idp ++ "\" opaque_id:\"" ++ k.owner.opaqueId ++
    "\" > resource_id:<storage_id:\"" ++ k.resourceId.storageId ++ "\" opaque_id:\"" ++
    k.resourceId.opaqueId ++ "\" > grantee:<" ++ granteeText k.grantee ++ "> "

/-- Modelled from the spec: protobuf text rendering ShareReference.String() -
the oneof member is printed wrapped in the field name, so it differs from the
bare inner ShareId/ShareKey rendering. -/
def shareRefText : ShareRefM → String
  | .byId o => "spec:<id:<" ++ shareIdText o ++ "> > "
  | .byKey k => "spec:<key:<" ++ shareKeyText k ++ "> > "
  | .unset => ""

/-- The error surface of the share manager lookup: errtypes.NotFound with its
message string. -/
inductive ShareErr where
  | notFound (msg : String)
  deriving DecidableEq, Repr

/-- Shallow embedding of mgr.getByID: first share whose id matches, else
NotFound(id.String()). -/
def getByID (shares : List ShareM) (opaqueId : String) : Except ShareErr ShareM :=
  match shares.find? (fun s => s.shareId == opaqueId) with
  | some s => .ok s
  | none => .error (.notFound (shareIdText opaqueId))

/-- Shallow embedding of mgr.getByKey: first share whose owner-or-creator,
resource id and grantee match the key, else NotFound(key.String()). -/
def getByKey (shares : List ShareM) (k : ShareKeyM) : Except ShareErr ShareM :=
  match shares.find? (fun s =>
      decide ((k.owner = s.owner ∨ k.owner = s.creator) ∧
        k.resourceId = s.resourceId ∧ k.grantee = s.grantee)) with
  | some s => .ok s
  | none => .error (.notFound (shareKeyText k))

/-- Modelled from the spec: share.IsCreatedByUser from the repository's share
package (not under src/) - the user equals the share's owner or creator. -/
def isCreatedByUser (s : ShareM) (u : UserM) : Prop :=
  u.uid = s.owner ∨ u.uid = s.creator

instance (s : ShareM) (u : UserM) : Decidable (isCreatedByUser s u) := by
  unfold isCreatedByUser; infer_instance

/-- Modelled from the spec: share.IsGrantedToUser from the repository's share
package (not under src/) - the grantee is the user, or a group the user is in. -/
def isGrantedToUser (s : ShareM) (u : UserM) : Prop :=
  match s.grantee with
  | .user id => id = u.uid
  | .group g => g ∈ u.groups

instance (s : ShareM) (u : UserM) : Decidable (isGrantedToUser s u) := by
  unfold isGrantedToUser; cases s.grantee <;> simp <;> infer_instance

/-- Shallow embedding of mgr.get, which is what GetShare returns: resolve the
reference, then return the share only to its creator/owner or a grantee, and
NotFound(ref.String()) otherwise "to not disclose information". -/
def getShare (shares : List ShareM) (u : UserM) (ref : ShareRefM) : Except ShareErr ShareM :=
  let resolved :=
    match ref with
    | .byId o => getByID shares o
    | .byKey k => getByKey shares k
    | .unset => .error (.notFound (shareRefText ref))
  match resolved with
  | .error e => .error e
  | .ok s =>
    if isCreatedByUser s u then .ok s
    else if isGrantedToUser s u then .ok s
    else .error (.notFound (shareRefText ref))

/- ### Section 4: upload session store (store.go) -/

/-- Two to the 63rd, the int64 sign boundary. -/
def two63 : Int := 9223372036854775808

/-- Two to the 64th. -/
def two64 : Int := 18446744073709551616

/-- Go conversion uint64(x) of an int64 value: the bit pattern read as an
unsigned value, here represented as an Int in [0, 2^64). -/
def u64OfI64 (x : Int) : Int := x % two64

/-- Go conversion int64(y) of a uint64 value y in [0, 2^64): reinterpret the
bit pattern as a signed value. -/
def i64OfU64 (y : Int) : Int := if y < two63 then y else y - two64

/-- Two-complement wrap of an Int into the int64 range, the result of int64
arithmetic in Go. -/
def i64Wrap (x : Int) : Int := (x + two63) % two64 - two63

/-- Modelled from the spec: node.RevisionIDDelimiter, the delimiter between a
node id and the revision timestamp in a version node's name. -/
def revisionDelim : String := ".REV."

/-- Modelled from the spec: the RFC3339Nano rendering of a UTC timestamp,
abstracted as an injective encoding of the timestamp (time is modelled as
nanoseconds since the epoch). -/
def rfc3339Nano (t : Nat) : String := "ts:" ++ toString t

/-- Modelled from the spec: lookup.InternalPath, the deterministic internal
path of a node id inside a space (sharding elided). -/
def internalPath (spaceId nodeId : String) : String :=
  spaceId ++ "/nodes/" ++ nodeId

/-- Modelled from the spec: node.CalculateEtag, a function of the node id and
its mtime. -/
def calculateEtag (nodeId : String) (mtime : Nat) : String :=
  "etag:" ++ nodeId ++ ":" ++ toString mtime

/-- Attribute-name constants (prefixes package, modelled): checksum class. -/
def checksumPref : String := "user.ocis.cs."

/-- Attribute-name constant: node type. -/
def typeAttr : String := "user.ocis.type"

/-- Attribute-name constant: blob id. -/
def blobIDAttr : String := "user.ocis.blobid"

/-- Attribute-name constant: blob size. -/
def blobsizeAttr : String := "user.ocis.blobsize"

/-- Attribute-name constant: mtime. -/
def mtimeAttr : String := "user.ocis.mtime"

/-- The attribute predicate passed to CopyMetadataWithSourceLock in
updateExistingNode: checksums, type, blob id, blob size and mtime are copied
to the version node. -/
def versionCopyPred (attributeName : String) : Bool :=
  checksumPref.isPrefixOf attributeName ||
    attributeName == typeAttr ||
    attributeName == blobIDAttr ||
    attributeName == blobsizeAttr ||
    attributeName == mtimeAttr

/-- The session metadata the pre-commit step writes: MetaData["sizeDiff"]
(kept as the int64 value that FormatInt renders) and MetaData["versionsPath"].
A missing key reads as the Go zero value "". -/
structure SessionMeta where
  sizeDiff : Option Int
  versionsPath : Option String
  deriving DecidableEq, Repr

/-- Go map read of a possibly missing string key: missing reads as "". -/
def metaRead (v : Option String) : String := v.getD ""

/-- An upload session as CreateNodeForUpload consumes it: target ids, declared
size (int64), optional client mtime override, whether the target node already
exists, the three client precondition headers and the metadata map.
The if-unmodified-since header is none when empty, some none when set but not
RFC3339Nano-parseable and some (some t) when it parses to t. -/
structure UploadSession where
  sessionId : String
  spaceId : String
  nodeId : String
  parentId : String
  filename : String
  size : Int
  mtimeOverride : Option Nat
  nodeExists : Bool
  hIfMatch : String
  hIfNoneMatch : String
  hIfUnmodifiedSince : Option (Option Nat)
  meta : SessionMeta
  deriving DecidableEq, Repr

/-- Outcomes of the fallible operations CreateNodeForUpload and its helpers
perform, plus the data read from the existing target node. -/
structure StoreEnv where
  readSpaceRootOk : Bool
  checkLockOk : Bool
  mkdirOk : Bool
  mdLockOk : Bool
  openExclOk : Bool
  quotaOk : Bool
  lockfileOpenOk : Bool
  oldBlobsize : Int
  oldMTimeOk : Bool
  oldMTime : Nat
  createVersionOk : Bool
  copyMetadataOk : Bool
  chtimesOk : Bool
  setXattrsOk : Bool
  persistOk : Bool
  deriving DecidableEq, Repr

/-- The error surface of the pre-commit step. -/
inductive UploadErr where
  | aborted (msg : String)
  | internalErr (msg : String)
  | ioError (op : String)
  | quotaExceeded
  | lockedErr
  deriving DecidableEq, Repr

deriving instance DecidableEq for Except

/-- Result of updateExistingNode: whether a metadata lock was acquired and
whether a non-nil unlock function was returned to the caller, the error or
success, the updated session metadata, and the filesystem targets of the
os.Create, CopyMetadataWithSourceLock and os.Chtimes calls (if reached). -/
structure UpdateResult where
  lockAcquired : Bool
  unlockReturned : Bool
  res : Except UploadErr Unit
  meta : SessionMeta
  createTarget : Option String
  copyTarget : Option String
  chtimesTarget : Option (String × Nat)
  deriving DecidableEq, Repr

/-- The path the session records as versionsPath: the live internal path when
versioning is disabled, else the internal path of id + revision delimiter +
the old node's UTC mtime in RFC3339Nano form. -/
def versionNodePath (disableVersioning : Bool) (s : UploadSession) (env : StoreEnv) : String :=
  if disableVersioning then internalPath s.spaceId s.nodeId
  else internalPath s.spaceId (s.nodeId ++ revisionDelim ++ rfc3339Nano env.oldMTime)

/-- Shallow embedding of OcisStore.updateExistingNode.  Mirrors the source
order: lock the target metadata, check quota, read the old mtime, compute the
old etag, enforce if-match / if-none-match / if-unmodified-since, then (with
versioning) create the version node and copy attributes - note the source
passes session.info.MetaData["versionsPath"] (still unset at that point) to
os.Create and to the copy - then record sizeDiff and versionsPath in the
session and set the version file's mtime to the old mtime. -/
def updateExistingNode (disableVersioning : Bool) (env : StoreEnv) (s : UploadSession) :
    UpdateResult :=
  if env.lockfileOpenOk = false then
    ⟨false, false, .error (.ioError "open-lockfile"), s.meta, none, none, none⟩
  else if env.quotaOk = false then
    ⟨true, true, .error .quotaExceeded, s.meta, none, none, none⟩
  else if env.oldMTimeOk = false then
    ⟨true, true, .error (.ioError "get-mtime"), s.meta, none, none, none⟩
  else if s.hIfMatch ≠ "" ∧ s.hIfMatch ≠ calculateEtag s.nodeId env.oldMTime then
    ⟨true, true, .error (.aborted "etag mismatch"), s.meta, none, none, none⟩
  else if s.hIfNoneMatch ≠ "" ∧ s.hIfNoneMatch = "*" then
    ⟨true, true, .error (.aborted "etag mismatch, resource exists"), s.meta, none, none, none⟩
  else if s.hIfNoneMatch ≠ "" ∧ calculateEtag s.nodeId env.oldMTime ∈ s.hIfNoneMatch.splitOn "," then
    ⟨true, true, .error (.aborted "etag mismatch"), s.meta, none, none, none⟩
  else if s.hIfUnmodifiedSince = some none then
    ⟨true, true, .error (.internalErr "failed to parse if-unmodified-since time"), s.meta, none, none, none⟩
  else if (s.hIfUnmodifiedSince.getD none).any (fun t => decide (env.oldMTime > t)) then
    ⟨true, true, .error (.aborted "if-unmodified-since mismatch"), s.meta, none, none, none⟩
  else if disableVersioning = false ∧ env.createVersionOk = false then
    ⟨true, true, .error (.ioError "create-version"), s.meta,
      some (metaRead s.meta.versionsPath), none, none⟩
  else if disableVersioning = false ∧ env.copyMetadataOk = false then
    ⟨true, true, .error (.ioError "copy-metadata"), s.meta,
      some (metaRead s.meta.versionsPath), some (metaRead s.meta.versionsPath), none⟩
  else if env.chtimesOk = false then
    ⟨true, true, .error (.internalErr "failed to change mtime of version node"),
      ⟨some (i64Wrap (i64OfU64 (u64OfI64 s.size) - env.oldBlobsize)),
        some (versionNodePath disableVersioning s env)⟩,
      (if disableVersioning then none else some (metaRead s.meta.versionsPath)),
      (if disableVersioning then none else some (metaRead s.meta.versionsPath)),
      some (versionNodePath disableVersioning s env, env.oldMTime)⟩
  else
    ⟨true, true, .ok (),
      ⟨some (i64Wrap (i64OfU64 (u64OfI64 s.size) - env.oldBlobsize)),
        some (versionNodePath disableVersioning s env)⟩,
      (if disableVersioning then none else some (metaRead s.meta.versionsPath)),
      (if disableVersioning then none else some (metaRead s.meta.versionsPath)),
      some (versionNodePath disableVersioning s env, env.oldMTime)⟩

/-- Result of initNewNode: lock bookkeeping, error or success, session
metadata. -/
structure InitResult where
  lockAcquired : Bool
  unlockReturned : Bool
  res : Except UploadErr Unit
  meta : SessionMeta
  deriving DecidableEq, Repr

/-- Shallow embedding of OcisStore.initNewNode: create the folder structure,
lock the new node metadata, create the node file with O_CREAT|O_EXCL, check
quota with (0, fsize), and record sizeDiff = fileSize. -/
def initNewNode (env : StoreEnv) (s : UploadSession) : InitResult :=
  if env.mkdirOk = false then
    ⟨false, false, .error (.ioError "mkdir"), s.meta⟩
  else if env.mdLockOk = false then
    ⟨false, false, .error (.ioError "metadata-lock"), s.meta⟩
  else if env.openExclOk = false then
    ⟨true, true, .error (.ioError "open-excl"), s.meta⟩
  else if env.quotaOk = false then
    ⟨true, true, .error .quotaExceeded, s.meta⟩
  else
    ⟨true, true, .ok (), ⟨some (i64OfU64 (u64OfI64 s.size)), s.meta.versionsPath⟩⟩

/-- Result of CreateNodeForUpload: error or success, final session metadata,
whether a metadata lock was acquired and whether it was released (by the
deferred unlock) before returning, and the filesystem targets of the version
creation steps. -/
structure CreateResult where
  res : Except UploadErr Unit
  meta : SessionMeta
  lockAcquired : Bool
  lockReleased : Bool
  createTarget : Option String
  copyTarget : Option String
  chtimesTarget : Option (String × Nat)
  persisted : Bool
  deriving DecidableEq, Repr

/-- The tail of CreateNodeForUpload shared by both branches: overwrite the
node attributes (SetXattrsWithContext) and persist the session. -/
def createNodeTail (meta : SessionMeta) (lockAcq lockRel : Bool)
    (ct cpt : Option String) (cht : Option (String × Nat)) (env : StoreEnv) : CreateResult :=
  if env.setXattrsOk = false then
    ⟨.error (.ioError "write-metadata"), meta, lockAcq, lockRel, ct, cpt, cht, false⟩
  else if env.persistOk = false then
    ⟨.error (.ioError "persist"), meta, lockAcq, lockRel, ct, cpt, cht, false⟩
  else
    ⟨.ok (), meta, lockAcq, lockRel, ct, cpt, cht, true⟩

/-- Combine the updateExistingNode result with the shared tail: on a helper
error CreateNodeForUpload returns that error (after the deferred unlock ran);
on helper success it proceeds to the attribute overwrite and persist. -/
def createFromUpdate (u : UpdateResult) (env : StoreEnv) : CreateResult :=
  match u.res with
  | .error e =>
      ⟨.error e, u.meta, u.lockAcquired, u.unlockReturned, u.createTarget, u.copyTarget,
        u.chtimesTarget, false⟩
  | .ok _ =>
      createNodeTail u.meta u.lockAcquired u.unlockReturned u.createTarget u.copyTarget
        u.chtimesTarget env

/-- Combine the initNewNode result with the shared tail. -/
def createFromInit (i : InitResult) (env : StoreEnv) : CreateResult :=
  match i.res with
  | .error e => ⟨.error e, i.meta, i.lockAcquired, i.unlockReturned, none, none, none, false⟩
  | .ok _ => createNodeTail i.meta i.lockAcquired i.unlockReturned none none none env

/-- Shallow embedding of OcisStore.CreateNodeForUpload: read the space root,
check the advisory lock, then update the existing node or initialize a new
one; the deferred function releases the metadata lock exactly when the helper
returned a non-nil unlock function, on success and failure paths alike. -/
def createNodeForUpload (disableVersioning : Bool) (env : StoreEnv) (s : UploadSession) :
    CreateResult :=
  if env.readSpaceRootOk = false then
    ⟨.error (.ioError "read-space-root"), s.meta, false, false, none, none, none, false⟩
  else if env.checkLockOk = false then
    ⟨.error .lockedErr, s.meta, false, false, none, none, none, false⟩
  else if s.nodeExists then
    createFromUpdate (updateExistingNode disableVersioning env s) env
  else
    createFromInit (initNewNode env s) env

/- ### Section 5: post-processing consumer (PostprocessingFinished) -/

/-- The PostprocessingFinished outcome constant "continue". -/
def ppContinue : String := "continue"

/-- The PostprocessingFinished outcome constant "abort". -/
def ppAbort : String := "abort"

/-- The PostprocessingFinished outcome constant "delete". -/
def ppDelete : String := "delete"

/-- The target node as the consumer sees it: current blob, processing flag,
and the restorable prior version (if the upload overwrote an existing file). -/
structure PPNode where
  blobId : String
  processing : Bool
  versionBlobId : Option String
  deriving DecidableEq, Repr

/-- The persisted upload session the consumer loads by upload id; the chunk
bin holds the bytes Finalize moves into the blob store. -/
structure PPSession where
  binBlobId : String
  deriving DecidableEq, Repr

/-- The state the consumer acts on for one upload id: the persisted session
(none once its info file was removed), the target node, and the UploadReady
events published so far as (upload id, failed) pairs. -/
structure PPState where
  session : Option PPSession
  node : PPNode
  published : List (String × Bool)
  deriving DecidableEq, Repr

/-- Deterministic environment of one consumption: whether Finalize succeeds
and whether the target node can be read back. -/
structure PPEnv where
  finalizeOk : Bool
  nodeReadOk : Bool
  deriving DecidableEq, Repr

/-- The (failed, keepUpload) pair the outcome switch computes; an unknown
outcome falls through to the abort branch. -/
def ppOutcomeFlags (outcome : String) (finalizeOk : Bool) : Bool × Bool :=
  if outcome = ppContinue then (if finalizeOk then (false, false) else (true, true))
  else if outcome = ppDelete then (true, false)
  else (true, true)

/-- Modelled from the spec: upload.Cleanup as the consumer calls it - on
failure restore the prior attributes from the version node, otherwise remove
the processing status. -/
def cleanupNode (failed : Bool) (n : PPNode) : PPNode :=
  if failed then
    { n with blobId := n.versionBlobId.getD n.blobId }
  else
    { n with processing := false }

/-- Shallow embedding of one PostprocessingFinished consumption in
Decomposedfs.Postprocessing: load the session by upload id (a missing session
skips the event), run the outcome switch (Finalize on "continue", with a
failed Finalize switching to the abort flags; unknown outcomes fall through
to abort), read the node back (a failed read skips cleanup and publish),
clean up - removing the session unless keepUpload - and publish UploadReady
with the failed flag. -/
def ppStep (env : PPEnv) (uploadId outcome : String) (st : PPState) : PPState :=
  match st.session with
  | none => st
  | some up =>
    let flags := ppOutcomeFlags outcome env.finalizeOk
    let node1 :=
      if outcome = ppContinue ∧ env.finalizeOk then
        { st.node with blobId := up.binBlobId }
      else st.node
    if env.nodeReadOk = false then
      { st with node := node1 }
    else
      { session := if flags.2 then some up else none,
        node := cleanupNode flags.1 node1,
        published := st.published ++ [(uploadId, flags.1)] }

/- ### Section 6: on-demand virus scan (VirusscanFinished, empty upload id) -/

/-- A file revision as ListRevisions returns it: mtime, opaque revision key
and the blob it snapshots. -/
structure RevisionM where
  mtime : Nat
  key : String
  blobId : String
  deriving DecidableEq, Repr

/-- Whether the resource is live, trashed (in the recycle bin) or purged. -/
inductive ResourceFate where
  | livePresent
  | trashed
  | purged
  deriving DecidableEq, Repr

/-- The state of the scanned resource: fate, live mtime and blob, and its
revisions. -/
structure VirusState where
  fate : ResourceFate
  liveMtime : Nat
  liveBlobId : String
  revisions : List RevisionM
  deriving DecidableEq, Repr

/-- Modelled from the spec: the name of the version node created for the
current live state when a revision is restored - node id, revision delimiter
and the live mtime. -/
def mkRevKey (nodeId : String) (mtime : Nat) : String :=
  nodeId ++ revisionDelim ++ rfc3339Nano mtime

/-- Modelled from the spec: fs.RestoreRevision - snapshot the current live
state as a new revision named after the live mtime, and make the named
revision's blob and mtime live.  An unknown key changes nothing (the consumer
skips further work on error). -/
def restoreRevision (nodeId : String) (st : VirusState) (key : String) : VirusState :=
  match st.revisions.find? (fun r => r.key == key) with
  | none => st
  | some r =>
      { st with
        liveBlobId := r.blobId,
        liveMtime := r.mtime,
        revisions := st.revisions ++ [⟨st.liveMtime, mkRevKey nodeId st.liveMtime, st.liveBlobId⟩] }

/-- Modelled from the spec: fs.DeleteRevision removes the revision with the
given key. -/
def deleteRevision (st : VirusState) (key : String) : VirusState :=
  { st with revisions := st.revisions.filter (fun r => r.key ≠ key) }

/-- The Go map versions[mtime] = key built over the listed revisions,
represented as the insertion list; a later insertion wins. -/
def buildVersions (revs : List RevisionM) : List (Nat × String) :=
  revs.map (fun r => (r.mtime, r.key))

/-- Go map lookup on the insertion list: the last inserted value for the key,
if any. -/
def versionsGet (m : List (Nat × String)) (k : Nat) : Option String :=
  (m.reverse.find? (fun p => p.1 == k)).map (·.2)

/-- The nv accumulator loop: the greatest revision mtime, starting from 0. -/
def newestMtime (revs : List RevisionM) : Nat :=
  revs.foldl (fun nv v => if v.mtime > nv then v.mtime else nv) 0

/-- Shallow embedding of the VirusscanFinished branch for an empty upload id
with outcome "delete" in Decomposedfs.Postprocessing: list the revisions; with
none, trash the resource via Delete and purge it from the recycle bin; with
revisions, remember all (mtime, key) pairs, restore the revision with the
greatest mtime, list revisions again and delete every revision whose mtime was
not remembered (the infected one).  Returns the final state and the trace of
storage calls. -/
def onDemandDelete (nodeId : String) (st : VirusState) : VirusState × List String :=
  let revs := st.revisions
  if revs.isEmpty then
    let st1 := { st with fate := .trashed }
    let st2 := { st1 with fate := .purged }
    (st2, ["Delete", "PurgeRecycleItem"])
  else
    let versions := buildVersions revs
    let nv := newestMtime revs
    let restoreKey := (versionsGet versions nv).getD ""
    let st1 := restoreRevision nodeId st restoreKey
    let revs2 := st1.revisions
    let doomed := revs2.filter (fun v => (versionsGet versions v.mtime).isNone)
    let st2 := doomed.foldl (fun acc r => deleteRevision acc r.key) st1
    (st2, ["RestoreRevision:" ++ restoreKey] ++ doomed.map (fun r => "DeleteRevision:" ++ r.key))

/- ### Theorems -/

/-- Claim C8: GetQuota never returns a remaining value produced by unsigned
underflow: whenever the space carries a parseable numeric quota total that is
at most the free space, the returned remaining equals total minus used when
used is less than total and equals 0 otherwise, so remaining never exceeds
total. -/
theorem getQuota_no_underflow (total riSize availableSize : Nat)
    (h : total ≤ availableSize) :
    getQuotaTail (.numeric total) riSize availableSize =
      some ⟨total, riSize, if riSize < total then total - riSize else 0⟩ ∧
    (if riSize < total then total - riSize else 0) ≤ total := by
  constructor
  · simp only [getQuotaTail, if_pos h]
    congr 1
    by_cases hlt : riSize < total
    · rw [if_pos hlt, if_neg (by omega)]
    · rw [if_neg hlt, if_pos (by omega)]
  · split <;> omega

/-- Witness for getQuota_no_underflow at total 10, used 3, free 100. -/
theorem getQuota_no_underflow_witness :
    (10 : Nat) ≤ 100 ∧
    (getQuotaTail (.numeric 10) 3 100 =
        some ⟨10, 3, if 3 < 10 then 10 - 3 else 0⟩ ∧
      (if (3 : Nat) < 10 then 10 - 3 else 0) ≤ 10) :=
  ⟨by decide, getQuota_no_underflow 10 3 100 (by decide)⟩

/-- A fully successful environment for handleNew. -/
def handleNewEnvOk : NewEnv :=
  ⟨true, true, false, .okCode, true, false, .notFound, false, .okCode, false, 200, false,
    .okCode, true⟩

/-- Claim C9, counterexample: a request whose filename contains a path
segment but whose template parameter is non-empty is answered with the
unimplemented error, not with an invalid-parameter error, so the claim as
stated (quantified over every request with such a filename) fails. -/
theorem handleNew_template_beats_filename_check :
    respCode (handleNew handleNewEnvOk "tpl" "parent!1" "a/b").1 = some .unimplemented ∧
    some AppErrorCode.unimplemented ≠ some AppErrorCode.invalidParameter := by
  exact ⟨rfl, by decide⟩

/-- Claim C9, amended: for every request whose filename query parameter
contains a path segment, handleNew issues no stat, upload-initiation or
data-transfer calls; and provided the gateway client is obtained and the
template parameter is empty, it responds with an invalid-parameter error. -/
theorem handleNew_path_segment_rejected (env : NewEnv)
    (template parentContainerId filename : String)
    (hslash : (pathSplit filename).1 ≠ "" ∨ (pathSplit filename).2 ≠ filename) :
    (handleNew env template parentContainerId filename).2 = [] ∧
    (env.clientOk = true → template = "" →
      respCode (handleNew env template parentContainerId filename).1 =
        some .invalidParameter) := by
  have hfn : filename ≠ "" := by
    rintro rfl
    exact absurd hslash (by decide)
  unfold handleNew
  by_cases h1 : env.clientOk = false
  · rw [if_pos h1]
    exact ⟨rfl, fun hc _ => absurd (h1.symm.trans hc) (by decide)⟩
  · rw [if_neg h1]
    by_cases h2 : template ≠ ""
    · rw [if_pos h2]
      exact ⟨rfl, fun _ ht => absurd ht h2⟩
    · rw [if_neg h2]
      by_cases h3 : parentContainerId = ""
      · rw [if_pos h3]
        exact ⟨rfl, fun _ _ => rfl⟩
      · rw [if_neg h3]
        by_cases h4 : env.parentIdValid = false
        · rw [if_pos h4]
          exact ⟨rfl, fun _ _ => rfl⟩
        · rw [if_neg h4, if_neg hfn, if_pos hslash]
          exact ⟨rfl, fun _ _ => rfl⟩

/-- Witness for handleNew_path_segment_rejected on filename "a/b" with a
healthy environment and empty template. -/
theorem handleNew_path_segment_rejected_witness :
    ((pathSplit "a/b").1 ≠ "" ∨ (pathSplit "a/b").2 ≠ "a/b") ∧
    ((handleNew handleNewEnvOk "" "parent!1" "a/b").2 = [] ∧
      (handleNewEnvOk.clientOk = true → "" = "" →
        respCode (handleNew handleNewEnvOk "" "parent!1" "a/b").1 =
          some .invalidParameter)) :=
  ⟨by decide, handleNew_path_segment_rejected handleNewEnvOk "" "parent!1" "a/b" (by decide)⟩

/-- A share resolved by getByID is one of the stored shares. -/
theorem getByID_ok_mem {shares : List ShareM} {o : String} {s : ShareM}
    (h : getByID shares o = .ok s) : s ∈ shares := by
  unfold getByID at h
  cases hf : shares.find? (fun t => t.shareId == o) with
  | none => rw [hf] at h; cases h
  | some t =>
      rw [hf] at h
      cases h
      exact List.mem_of_find?_eq_some hf

/-- A share resolved by getByKey is one of the stored shares. -/
theorem getByKey_ok_mem {shares : List ShareM} {k : ShareKeyM} {s : ShareM}
    (h : getByKey shares k = .ok s) : s ∈ shares := by
  unfold getByKey at h
  cases hf : shares.find? (fun t =>
      decide ((k.owner = t.owner ∨ k.owner = t.creator) ∧
        k.resourceId = t.resourceId ∧ k.grantee = t.grantee)) with
  | none => rw [hf] at h; cases h
  | some t =>
      rw [hf] at h
      cases h
      exact List.mem_of_find?_eq_some hf

/-- The share and requesting user of the C10 scenario. -/
def outsiderShare : ShareM :=
  ⟨"s1", ⟨"storage1", "res1"⟩, ⟨"idp", "alice"⟩, ⟨"idp", "alice"⟩, .user ⟨"idp", "bob"⟩⟩

/-- A user who is neither creator/owner nor grantee of outsiderShare. -/
def outsiderUser : UserM := ⟨⟨"idp", "carol"⟩, []⟩

/-- Claim C10, counterexample: for a user who is neither creator/owner nor
grantee, GetShare does return NotFound, but not the same result a reference
matching no share yields - the unauthorized lookup carries ref.String() as
the message while the no-match lookup carries the inner id's String(), so the
two outcomes are distinguishable. -/
theorem getShare_outsider_result_differs :
    getShare [outsiderShare] outsiderUser (.byId "s1") =
      .error (.notFound (shareRefText (.byId "s1"))) ∧
    getShare [] outsiderUser (.byId "s1") =
      .error (.notFound (shareIdText "s1")) ∧
    getShare [outsiderShare] outsiderUser (.byId "s1") ≠
      getShare [] outsiderUser (.byId "s1") := by
  refine ⟨rfl, rfl, ?_⟩
  decide

/-- Claim C10, amended: for every stored share list and requesting user who is
neither creator/owner nor grantee of any stored share, GetShare answers every
reference with a NotFound error - the same error kind a reference matching no
share yields - though the unauthorized-lookup message is ref.String() rather
than the inner id/key String(), so the two NotFound values are not
byte-identical. -/
theorem getShare_unauthorized_notfound (shares : List ShareM) (u : UserM) (ref : ShareRefM)
    (h : ∀ s ∈ shares, ¬isCreatedByUser s u ∧ ¬isGrantedToUser s u) :
    ∃ msg, getShare shares u ref = .error (.notFound msg) := by
  cases ref with
  | byId o =>
      cases hr : getByID shares o with
      | error e =>
          cases e with
          | notFound m => exact ⟨m, by simp [getShare, hr]⟩
      | ok s =>
          have hs := h s (getByID_ok_mem hr)
          refine ⟨shareRefText (.byId o), ?_⟩
          simp [getShare, hr, if_neg hs.1, if_neg hs.2]
  | byKey k =>
      cases hr : getByKey shares k with
      | error e =>
          cases e with
          | notFound m => exact ⟨m, by simp [getShare, hr]⟩
      | ok s =>
          have hs := h s (getByKey_ok_mem hr)
          refine ⟨shareRefText (.byKey k), ?_⟩
          simp [getShare, hr, if_neg hs.1, if_neg hs.2]
  | unset => exact ⟨shareRefText .unset, rfl⟩

/-- Witness for getShare_unauthorized_notfound: carol, an outsider to the
single stored share, receives NotFound for an id reference to it. -/
theorem getShare_unauthorized_notfound_witness :
    (∀ s ∈ [outsiderShare], ¬isCreatedByUser s outsiderUser ∧
      ¬isGrantedToUser s outsiderUser) ∧
    ∃ msg, getShare [outsiderShare] outsiderUser (.byId "s1") = .error (.notFound msg) :=
  ⟨by decide, getShare_unauthorized_notfound [outsiderShare] outsiderUser (.byId "s1")
    (by decide)⟩

/-- An environment for the upload store in which every syscall succeeds; the
existing target has blob size 5 and mtime 7. -/
def storeEnvOk : StoreEnv :=
  ⟨true, true, true, true, true, true, true, 5, true, 7, true, true, true, true, true⟩

/-- A fresh upload session targeting an existing node: declared size 8, no
precondition headers, and - as for every newly initiated session - no
versionsPath entry in its metadata map yet. -/
def freshOverwriteSession : UploadSession :=
  ⟨"sess1", "space1", "node1", "parent1", "f.txt", 8, none, true, "", "", none, ⟨none, none⟩⟩

/-- Claim C1: with versioning enabled, updateExistingNode passes
session.info.MetaData["versionsPath"] to os.Create and to the metadata copy
before that key is ever assigned (the assignment happens only afterwards), so
for a fresh session the version node is created - and the attributes are
copied - at the empty path instead of at the internal path
id + revision delimiter + old mtime that the session only records later; with
os.Create("") failing, the whole pre-commit step errors out. -/
theorem updateExistingNode_version_created_at_stale_path :
    (updateExistingNode false storeEnvOk freshOverwriteSession).createTarget = some "" ∧
    (updateExistingNode false storeEnvOk freshOverwriteSession).copyTarget = some "" ∧
    (updateExistingNode false storeEnvOk freshOverwriteSession).meta.versionsPath =
      some (internalPath "space1" ("node1" ++ revisionDelim ++ rfc3339Nano 7)) ∧
    "" ≠ internalPath "space1" ("node1" ++ revisionDelim ++ rfc3339Nano 7) ∧
    (updateExistingNode false
        ⟨true, true, true, true, true, true, true, 5, true, 7, false, true, true, true, true⟩
        freshOverwriteSession).res = .error (.ioError "create-version") := by
  refine ⟨rfl, rfl, rfl, ?_, rfl⟩
  decide

/-- Claim C2: with the metadata lock taken and the quota and mtime reads
succeeding, updateExistingNode returns Aborted exactly when a client
precondition is violated: a non-empty if-match differing from the current
etag; if-none-match being "*" or its comma-separated list containing the
current etag; or a parsed if-unmodified-since lying strictly before the
current mtime. -/
theorem updateExistingNode_precondition_aborted (dv : Bool) (env : StoreEnv)
    (s : UploadSession) (hL : env.lockfileOpenOk = true) (hQ : env.quotaOk = true)
    (hM : env.oldMTimeOk = true) :
    (∃ m, (updateExistingNode dv env s).res = .error (.aborted m)) ↔
      ((s.hIfMatch ≠ "" ∧ s.hIfMatch ≠ calculateEtag s.nodeId env.oldMTime) ∨
       s.hIfNoneMatch = "*" ∨
       (s.hIfNoneMatch ≠ "" ∧
         calculateEtag s.nodeId env.oldMTime ∈ s.hIfNoneMatch.splitOn ",") ∨
       (∃ t, s.hIfUnmodifiedSince = some (some t) ∧ t < env.oldMTime)) := by
  have hL' : ¬(env.lockfileOpenOk = false) := by simp [hL]
  have hQ' : ¬(env.quotaOk = false) := by simp [hQ]
  have hM' : ¬(env.oldMTimeOk = false) := by simp [hM]
  simp only [updateExistingNode]
  rw [if_neg hL', if_neg hQ', if_neg hM']
  by_cases c1 : s.hIfMatch ≠ "" ∧ s.hIfMatch ≠ calculateEtag s.nodeId env.oldMTime
  · rw [if_pos c1]
    exact ⟨fun _ => Or.inl c1, fun _ => ⟨"etag mismatch", rfl⟩⟩
  · rw [if_neg c1]
    by_cases c2 : s.hIfNoneMatch ≠ "" ∧ s.hIfNoneMatch = "*"
    · rw [if_pos c2]
      exact ⟨fun _ => Or.inr (Or.inl c2.2), fun _ => ⟨"etag mismatch, resource exists", rfl⟩⟩
    · rw [if_neg c2]
      by_cases c3 : s.hIfNoneMatch ≠ "" ∧
          calculateEtag s.nodeId env.oldMTime ∈ s.hIfNoneMatch.splitOn ","
      · rw [if_pos c3]
        exact ⟨fun _ => Or.inr (Or.inr (Or.inl c3)), fun _ => ⟨"etag mismatch", rfl⟩⟩
      · rw [if_neg c3]
        by_cases c4 : s.hIfUnmodifiedSince = some none
        · rw [if_pos c4]
          constructor
          · rintro ⟨m, hm⟩
            exact absurd hm (by simp)
          · rintro (hv | hv | hv | ⟨t, ht, _⟩)
            · exact absurd hv c1
            · exact absurd ⟨by simp [hv], hv⟩ c2
            · exact absurd hv c3
            · exact absurd (c4.symm.trans ht) (by simp)
        · rw [if_neg c4]
          by_cases c5 : ((s.hIfUnmodifiedSince.getD none).any
              (fun t => decide (env.oldMTime > t))) = true
          · rw [if_pos c5]
            constructor
            · intro _
              refine Or.inr (Or.inr (Or.inr ?_))
              cases hs : s.hIfUnmodifiedSince with
              | none => rw [hs] at c5; simp at c5
              | some o =>
                cases o with
                | none => exact absurd hs c4
                | some t =>
                    rw [hs] at c5
                    simp only [Option.getD_some, Option.any_some, decide_eq_true_eq] at c5
                    exact ⟨t, rfl, by omega⟩
            · intro _
              exact ⟨"if-unmodified-since mismatch", rfl⟩
          · rw [if_neg c5]
            constructor
            · intro hex
              exfalso
              revert hex
              by_cases d1 : dv = false ∧ env.createVersionOk = false
              · rw [if_pos d1]
                rintro ⟨m, hm⟩
                simp at hm
              · rw [if_neg d1]
                by_cases d2 : dv = false ∧ env.copyMetadataOk = false
                · rw [if_pos d2]
                  rintro ⟨m, hm⟩
                  simp at hm
                · rw [if_neg d2]
                  by_cases d3 : env.chtimesOk = false
                  · rw [if_pos d3]
                    rintro ⟨m, hm⟩
                    simp at hm
                  · rw [if_neg d3]
                    rintro ⟨m, hm⟩
                    simp at hm
            · rintro (hv | hv | hv | ⟨t, ht, hlt⟩)
              · exact absurd hv c1
              · exact absurd ⟨by simp [hv], hv⟩ c2
              · exact absurd hv c3
              · rw [ht] at c5
                simp only [Option.getD_some, Option.any_some, decide_eq_true_eq] at c5
                omega

/-- Witness for updateExistingNode_precondition_aborted: a session carrying
if-none-match "*" against an existing node is aborted. -/
theorem updateExistingNode_precondition_aborted_witness :
    storeEnvOk.lockfileOpenOk = true ∧
    ∃ m, (updateExistingNode false storeEnvOk
      ⟨"sess2", "space1", "node1", "parent1", "f.txt", 8, none, true, "", "*", none,
        ⟨none, none⟩⟩).res = .error (.aborted m) :=
  ⟨rfl, (updateExistingNode_precondition_aborted false storeEnvOk
      ⟨"sess2", "space1", "node1", "parent1", "f.txt", 8, none, true, "", "*", none,
        ⟨none, none⟩⟩ rfl rfl rfl).mpr (Or.inr (Or.inl rfl))⟩

/-- Branch facts of updateExistingNode: the unlock function is returned to
the caller exactly when the lockfile was opened, and on success the recorded
sizeDiff is the int64 value of the declared size minus the old blob size. -/
theorem updateExistingNode_branches (dv : Bool) (env : StoreEnv) (s : UploadSession) :
    (updateExistingNode dv env s).unlockReturned = (updateExistingNode dv env s).lockAcquired ∧
    ((updateExistingNode dv env s).res = .ok () →
      (updateExistingNode dv env s).meta.sizeDiff =
        some (i64Wrap (i64OfU64 (u64OfI64 s.size) - env.oldBlobsize))) := by
  unfold updateExistingNode
  by_cases c1 : env.lockfileOpenOk = false
  · rw [if_pos c1]
    exact ⟨rfl, fun h => Except.noConfusion h⟩
  · rw [if_neg c1]
    by_cases c2 : env.quotaOk = false
    · rw [if_pos c2]
      exact ⟨rfl, fun h => Except.noConfusion h⟩
    · rw [if_neg c2]
      by_cases c3 : env.oldMTimeOk = false
      · rw [if_pos c3]
        exact ⟨rfl, fun h => Except.noConfusion h⟩
      · rw [if_neg c3]
        by_cases c4 : s.hIfMatch ≠ "" ∧ s.hIfMatch ≠ calculateEtag s.nodeId env.oldMTime
        · rw [if_pos c4]
          exact ⟨rfl, fun h => Except.noConfusion h⟩
        · rw [if_neg c4]
          by_cases c5 : s.hIfNoneMatch ≠ "" ∧ s.hIfNoneMatch = "*"
          · rw [if_pos c5]
            exact ⟨rfl, fun h => Except.noConfusion h⟩
          · rw [if_neg c5]
            by_cases c6 : s.hIfNoneMatch ≠ "" ∧ calculateEtag s.nodeId env.oldMTime ∈ s.hIfNoneMatch.splitOn ","
            · rw [if_pos c6]
              exact ⟨rfl, fun h => Except.noConfusion h⟩
            · rw [if_neg c6]
              by_cases c7 : s.hIfUnmodifiedSince = some none
              · rw [if_pos c7]
                exact ⟨rfl, fun h => Except.noConfusion h⟩
              · rw [if_neg c7]
                by_cases c8 : ((s.hIfUnmodifiedSince.getD none).any fun t => decide (env.oldMTime > t)) = true
                · rw [if_pos c8]
                  exact ⟨rfl, fun h => Except.noConfusion h⟩
                · rw [if_neg c8]
                  by_cases c9 : dv = false ∧ env.createVersionOk = false
                  · rw [if_pos c9]
                    exact ⟨rfl, fun h => Except.noConfusion h⟩
                  · rw [if_neg c9]
                    by_cases c10 : dv = false ∧ env.copyMetadataOk = false
                    · rw [if_pos c10]
                      exact ⟨rfl, fun h => Except.noConfusion h⟩
                    · rw [if_neg c10]
                      by_cases c11 : env.chtimesOk = false
                      · rw [if_pos c11]
                        exact ⟨rfl, fun h => Except.noConfusion h⟩
                      · rw [if_neg c11]
                        exact ⟨rfl, fun _ => rfl⟩

/-- Branch facts of initNewNode: the unlock function is returned exactly when
the metadata lock was acquired, and on success the recorded sizeDiff is the
int64 value of the declared file size. -/
theorem initNewNode_branches (env : StoreEnv) (s : UploadSession) :
    (initNewNode env s).unlockReturned = (initNewNode env s).lockAcquired ∧
    ((initNewNode env s).res = .ok () →
      (initNewNode env s).meta.sizeDiff = some (i64OfU64 (u64OfI64 s.size))) := by
  unfold initNewNode
  by_cases d1 : env.mkdirOk = false
  · rw [if_pos d1]
    exact ⟨rfl, fun h => Except.noConfusion h⟩
  · rw [if_neg d1]
    by_cases d2 : env.mdLockOk = false
    · rw [if_pos d2]
      exact ⟨rfl, fun h => Except.noConfusion h⟩
    · rw [if_neg d2]
      by_cases d3 : env.openExclOk = false
      · rw [if_pos d3]
        exact ⟨rfl, fun h => Except.noConfusion h⟩
      · rw [if_neg d3]
        by_cases d4 : env.quotaOk = false
        · rw [if_pos d4]
          exact ⟨rfl, fun h => Except.noConfusion h⟩
        · rw [if_neg d4]
          exact ⟨rfl, fun _ => rfl⟩

/-- createNodeTail passes the lock bookkeeping and session metadata through
unchanged, and succeeds exactly when the attribute write and the session
persist succeed. -/
theorem createNodeTail_fields (meta : SessionMeta) (a r : Bool) (ct cpt : Option String)
    (cht : Option (String × Nat)) (env : StoreEnv) :
    (createNodeTail meta a r ct cpt cht env).lockAcquired = a ∧
    (createNodeTail meta a r ct cpt cht env).lockReleased = r ∧
    (createNodeTail meta a r ct cpt cht env).meta = meta := by
  unfold createNodeTail
  by_cases t1 : env.setXattrsOk = false
  · rw [if_pos t1]
    exact ⟨rfl, rfl, rfl⟩
  · rw [if_neg t1]
    by_cases t2 : env.persistOk = false
    · rw [if_pos t2]
      exact ⟨rfl, rfl, rfl⟩
    · rw [if_neg t2]
      exact ⟨rfl, rfl, rfl⟩

/-- createFromUpdate passes lock bookkeeping and metadata through unchanged. -/
theorem createFromUpdate_fields (u : UpdateResult) (env : StoreEnv) :
    (createFromUpdate u env).lockAcquired = u.lockAcquired ∧
    (createFromUpdate u env).lockReleased = u.unlockReturned ∧
    (createFromUpdate u env).meta = u.meta := by
  obtain ⟨a, r, res, m, ct, cpt, cht⟩ := u
  cases res with
  | error e => exact ⟨rfl, rfl, rfl⟩
  | ok v =>
      cases v
      exact createNodeTail_fields m a r ct cpt cht env

/-- createFromInit passes lock bookkeeping and metadata through unchanged. -/
theorem createFromInit_fields (i : InitResult) (env : StoreEnv) :
    (createFromInit i env).lockAcquired = i.lockAcquired ∧
    (createFromInit i env).lockReleased = i.unlockReturned ∧
    (createFromInit i env).meta = i.meta := by
  obtain ⟨a, r, res, m⟩ := i
  cases res with
  | error e => exact ⟨rfl, rfl, rfl⟩
  | ok v =>
      cases v
      exact createNodeTail_fields m a r none none none env

/-- Claim C7: every metadata lock acquired during CreateNodeForUpload -
whether via initNewNode for a new target or via updateExistingNode for an
existing one - is released by the deferred unlock before CreateNodeForUpload
returns, on the success path and on every failure path after acquisition. -/
theorem createNodeForUpload_releases_lock (dv : Bool) (env : StoreEnv) (s : UploadSession)
    (h : (createNodeForUpload dv env s).lockAcquired = true) :
    (createNodeForUpload dv env s).lockReleased = true := by
  revert h
  unfold createNodeForUpload
  by_cases e1 : env.readSpaceRootOk = false
  · rw [if_pos e1]
    intro h
    exact Bool.noConfusion h
  · rw [if_neg e1]
    by_cases e2 : env.checkLockOk = false
    · rw [if_pos e2]
      intro h
      exact Bool.noConfusion h
    · rw [if_neg e2]
      by_cases e3 : s.nodeExists = true
      · rw [if_pos e3]
        intro h
        rw [(createFromUpdate_fields (updateExistingNode dv env s) env).2.1,
          (updateExistingNode_branches dv env s).1]
        rw [(createFromUpdate_fields (updateExistingNode dv env s) env).1] at h
        exact h
      · rw [if_neg e3]
        intro h
        rw [(createFromInit_fields (initNewNode env s) env).2.1,
          (initNewNode_branches env s).1]
        rw [(createFromInit_fields (initNewNode env s) env).1] at h
        exact h

/-- Witness for createNodeForUpload_releases_lock: with a healthy environment
and an existing target, the lock is acquired and released. -/
theorem createNodeForUpload_releases_lock_witness :
    (createNodeForUpload true storeEnvOk freshOverwriteSession).lockAcquired = true ∧
    (createNodeForUpload true storeEnvOk freshOverwriteSession).lockReleased = true :=
  ⟨rfl, createNodeForUpload_releases_lock true storeEnvOk freshOverwriteSession rfl⟩

/-- createFromUpdate succeeds only if the helper succeeded. -/
theorem createFromUpdate_ok (u : UpdateResult) (env : StoreEnv)
    (h : (createFromUpdate u env).res = .ok ()) : u.res = .ok () := by
  obtain ⟨a, r, res, m, ct, cpt, cht⟩ := u
  cases res with
  | error e => exact Except.noConfusion h
  | ok v =>
      cases v
      rfl

/-- createFromInit succeeds only if the helper succeeded. -/
theorem createFromInit_ok (i : InitResult) (env : StoreEnv)
    (h : (createFromInit i env).res = .ok ()) : i.res = .ok () := by
  obtain ⟨a, r, res, m⟩ := i
  cases res with
  | error e => exact Except.noConfusion h
  | ok v =>
      cases v
      rfl

/-- For int64 values in range, the uint64 round trip is the identity. -/
theorem size_arith (a : Int) (ha0 : 0 ≤ a) (ha1 : a < two63) :
    i64OfU64 (u64OfI64 a) = a := by
  unfold i64OfU64 u64OfI64 two63 two64 at *
  split_ifs <;> omega

/-- The int64 subtraction of in-range nonnegative sizes does not wrap. -/
theorem sizeDiff_arith (a b : Int) (ha0 : 0 ≤ a) (ha1 : a < two63) (hb0 : 0 ≤ b)
    (hb1 : b < two63) : i64Wrap (i64OfU64 (u64OfI64 a) - b) = a - b := by
  unfold i64Wrap i64OfU64 u64OfI64 two63 two64 at *
  split_ifs <;> omega

/-- Claim C6: when CreateNodeForUpload completes the pre-commit step, the
session metadata key sizeDiff equals the declared new size minus the previous
blob size for an existing target, and the declared new size for a new target
(sizes in the int64 range, as uploads and stored blobs are). -/
theorem createNodeForUpload_sizeDiff (dv : Bool) (env : StoreEnv) (s : UploadSession)
    (hs0 : 0 ≤ s.size) (hs1 : s.size < two63)
    (hb0 : 0 ≤ env.oldBlobsize) (hb1 : env.oldBlobsize < two63)
    (hok : (createNodeForUpload dv env s).res = .ok ()) :
    (createNodeForUpload dv env s).meta.sizeDiff =
      some (if s.nodeExists then s.size - env.oldBlobsize else s.size) := by
  revert hok
  unfold createNodeForUpload
  by_cases e1 : env.readSpaceRootOk = false
  · rw [if_pos e1]
    intro hok
    exact Except.noConfusion hok
  · rw [if_neg e1]
    by_cases e2 : env.checkLockOk = false
    · rw [if_pos e2]
      intro hok
      exact Except.noConfusion hok
    · rw [if_neg e2]
      by_cases e3 : s.nodeExists = true
      · rw [if_pos e3, if_pos e3]
        intro hok
        rw [(createFromUpdate_fields (updateExistingNode dv env s) env).2.2]
        rw [(updateExistingNode_branches dv env s).2
          (createFromUpdate_ok (updateExistingNode dv env s) env hok)]
        rw [sizeDiff_arith s.size env.oldBlobsize hs0 hs1 hb0 hb1]
      · rw [if_neg e3, if_neg e3]
        intro hok
        rw [(createFromInit_fields (initNewNode env s) env).2.2]
        rw [(initNewNode_branches env s).2
          (createFromInit_ok (initNewNode env s) env hok)]
        rw [size_arith s.size hs0 hs1]

/-- Witness for createNodeForUpload_sizeDiff: overwriting a blob of size 5
with a declared size of 8 records sizeDiff 3. -/
theorem createNodeForUpload_sizeDiff_witness :
    (0 : Int) ≤ 8 ∧
    (createNodeForUpload true storeEnvOk freshOverwriteSession).meta.sizeDiff =
      some (if freshOverwriteSession.nodeExists then
        freshOverwriteSession.size - storeEnvOk.oldBlobsize else freshOverwriteSession.size) :=
  ⟨by decide, createNodeForUpload_sizeDiff true storeEnvOk freshOverwriteSession
    (by decide) (by decide) (by decide) (by decide) rfl⟩

/-- An event for an upload id with no persisted session is skipped whole. -/
theorem ppStep_none (env : PPEnv) (uploadId outcome : String) (st : PPState)
    (h : st.session = none) : ppStep env uploadId outcome st = st := by
  unfold ppStep
  rw [h]

/-- Cleanup of the target node is idempotent: reverting twice equals
reverting once, unmarking twice equals unmarking once. -/
theorem cleanupNode_idem (f : Bool) (n : PPNode) :
    cleanupNode f (cleanupNode f n) = cleanupNode f n := by
  cases f with
  | false => simp [cleanupNode]
  | true => cases hv : n.versionBlobId <;> simp [cleanupNode, hv]

/-- The consumer state of the replay scenarios: a persisted session, a
processing node with a restorable version, and nothing published yet. -/
def ppStartState : PPState := ⟨some ⟨"bin1"⟩, ⟨"blob0", true, some "vblob"⟩, []⟩

/-- The environment in which Finalize and the node read succeed. -/
def ppEnvOk : PPEnv := ⟨true, true⟩

/-- Claim C3, counterexample: replaying a PostprocessingFinished with outcome
abort publishes UploadReady twice - the session is kept for retry, so the
second consumption processes it again; the consumer has no dedup by upload
id, refuting the at-most-one-UploadReady part of the claim. -/
theorem ppStep_abort_replay_publishes_twice :
    (ppStep ppEnvOk "u1" "abort" (ppStep ppEnvOk "u1" "abort" ppStartState)).published =
      [("u1", true), ("u1", true)] ∧
    ¬((ppStep ppEnvOk "u1" "abort" (ppStep ppEnvOk "u1" "abort" ppStartState)).published.length
        ≤ 1) :=
  ⟨rfl, by decide⟩

/-- Claim C3, amended: replaying any single PostprocessingFinished leaves the
target node in the same final state as processing it once; and when the first
processing removed the upload session (outcome continue with successful
finalize, or delete), the replay is a no-op, so at most one UploadReady is
published - but when the upload is kept for retry (abort, unknown outcome, or
failed finalize) each replay publishes UploadReady again, as the consumer
does not dedupe by upload id. -/
theorem ppStep_replay_node_converges (env : PPEnv) (uploadId outcome : String) (st : PPState) :
    (ppStep env uploadId outcome (ppStep env uploadId outcome st)).node =
      (ppStep env uploadId outcome st).node ∧
    ((ppStep env uploadId outcome st).session = none →
      ppStep env uploadId outcome (ppStep env uploadId outcome st) =
        ppStep env uploadId outcome st) := by
  refine ⟨?_, fun h => ppStep_none env uploadId outcome _ h⟩
  cases hs : st.session with
  | none =>
      rw [ppStep_none env uploadId outcome st hs, ppStep_none env uploadId outcome st hs]
  | some up =>
      by_cases hr : env.nodeReadOk = false
      · by_cases hc : outcome = ppContinue ∧ env.finalizeOk = true
        · simp [ppStep, hs, hr, hc]
        · simp [ppStep, hs, hr, hc]
      · by_cases hc : outcome = ppContinue ∧ env.finalizeOk = true
        · have h1 : (ppStep env uploadId outcome st).session = none := by
            simp [ppStep, hs, hr, ppOutcomeFlags, hc.1, hc.2]
          rw [ppStep_none env uploadId outcome _ h1]
        · by_cases hd : outcome = ppDelete
          · have h1 : (ppStep env uploadId outcome st).session = none := by
              have hnc : ¬(outcome = ppContinue) := by
                rw [hd]
                decide
              simp [ppStep, hs, hr, ppOutcomeFlags, hnc, hd,
                (show ppDelete ≠ ppContinue by decide)]
            rw [ppStep_none env uploadId outcome _ h1]
          · have hf : ppOutcomeFlags outcome env.finalizeOk = (true, true) := by
              unfold ppOutcomeFlags
              by_cases hcont : outcome = ppContinue
              · rw [if_pos hcont]
                cases hfb : env.finalizeOk with
                | false => rfl
                | true => exact absurd ⟨hcont, hfb⟩ hc
              · rw [if_neg hcont, if_neg hd]
            simp [ppStep, hs, hr, hc, hf, cleanupNode_idem]

/-- Witness for ppStep_replay_node_converges at a delete outcome, where the
session is removed and the replay is a no-op. -/
theorem ppStep_replay_node_converges_witness :
    (ppStep ppEnvOk "u3" ppDelete (ppStep ppEnvOk "u3" ppDelete ppStartState)).node =
      (ppStep ppEnvOk "u3" ppDelete ppStartState).node ∧
    ((ppStep ppEnvOk "u3" ppDelete ppStartState).session = none →
      ppStep ppEnvOk "u3" ppDelete (ppStep ppEnvOk "u3" ppDelete ppStartState) =
        ppStep ppEnvOk "u3" ppDelete ppStartState) :=
  ppStep_replay_node_converges ppEnvOk "u3" ppDelete ppStartState

/-- Claim C4: a PostprocessingFinished whose outcome is none of continue,
abort or delete is treated exactly as an abort - the whole consumption step
equals the abort step - and when the event is processed (session present,
node readable) the upload is kept for retry and the published UploadReady
carries failed = true. -/
theorem ppStep_unknown_outcome_as_abort (env : PPEnv) (uploadId outcome : String)
    (st : PPState) (h1 : outcome ≠ ppContinue) (h2 : outcome ≠ ppAbort)
    (h3 : outcome ≠ ppDelete) :
    ppStep env uploadId outcome st = ppStep env uploadId ppAbort st ∧
    (∀ up, st.session = some up → env.nodeReadOk = true →
      (ppStep env uploadId outcome st).session = some up ∧
      (ppStep env uploadId outcome st).published = st.published ++ [(uploadId, true)]) := by
  have hflags : ppOutcomeFlags outcome env.finalizeOk = (true, true) := by
    unfold ppOutcomeFlags
    rw [if_neg h1, if_neg h3]
  have habort : ppOutcomeFlags ppAbort env.finalizeOk = (true, true) := by
    unfold ppOutcomeFlags
    rw [if_neg (by decide : ¬(ppAbort = ppContinue)),
      if_neg (by decide : ¬(ppAbort = ppDelete))]
  have hnc : ¬(outcome = ppContinue ∧ env.finalizeOk = true) := fun hx => h1 hx.1
  have hnca : ¬(ppAbort = ppContinue ∧ env.finalizeOk = true) := fun hx =>
    absurd hx.1 (by decide)
  constructor
  · cases hs : st.session with
    | none =>
        rw [ppStep_none env uploadId outcome st hs, ppStep_none env uploadId ppAbort st hs]
    | some up => simp [ppStep, hs, hnc, hnca, hflags, habort]
  · intro up hsup hr
    have hrf : ¬(env.nodeReadOk = false) := by simp [hr]
    exact ⟨by simp [ppStep, hsup, hnc, hrf, hflags], by simp [ppStep, hsup, hnc, hrf, hflags]⟩

/-- Witness for ppStep_unknown_outcome_as_abort at the outcome "garbage". -/
theorem ppStep_unknown_outcome_as_abort_witness :
    ("garbage" ≠ ppContinue ∧ "garbage" ≠ ppAbort ∧ "garbage" ≠ ppDelete) ∧
    (ppStep ppEnvOk "u2" "garbage" ppStartState = ppStep ppEnvOk "u2" ppAbort ppStartState ∧
      (∀ up, ppStartState.session = some up → ppEnvOk.nodeReadOk = true →
        (ppStep ppEnvOk "u2" "garbage" ppStartState).session = some up ∧
        (ppStep ppEnvOk "u2" "garbage" ppStartState).published =
          ppStartState.published ++ [("u2", true)])) :=
  ⟨by decide, ppStep_unknown_outcome_as_abort ppEnvOk "u2" "garbage" ppStartState
    (by decide) (by decide) (by decide)⟩

/-- The nv loop never goes below its accumulator. -/
theorem foldl_mt_ge (revs : List RevisionM) :
    ∀ a : Nat, a ≤ revs.foldl (fun nv v => if v.mtime > nv then v.mtime else nv) a := by
  induction revs with
  | nil =>
      intro a
      simp
  | cons v l ih =>
      intro a
      simp only [List.foldl_cons]
      calc a ≤ (if v.mtime > a then v.mtime else a) := by split <;> omega
        _ ≤ _ := ih _

/-- The nv loop bounds every revision mtime from above. -/
theorem foldl_mt_ub (revs : List RevisionM) :
    ∀ (a : Nat) (r : RevisionM), r ∈ revs →
      r.mtime ≤ revs.foldl (fun nv v => if v.mtime > nv then v.mtime else nv) a := by
  induction revs with
  | nil =>
      intro a r hr
      cases hr
  | cons v l ih =>
      intro a r hr
      simp only [List.foldl_cons]
      rcases List.mem_cons.mp hr with h | h
      · subst h
        calc r.mtime ≤ (if r.mtime > a then r.mtime else a) := by split <;> omega
          _ ≤ _ := foldl_mt_ge l _
      · exact ih _ r h

/-- The nv loop result is the accumulator or some revision's mtime. -/
theorem foldl_mt_mem (revs : List RevisionM) :
    ∀ a : Nat, revs.foldl (fun nv v => if v.mtime > nv then v.mtime else nv) a = a ∨
      ∃ r ∈ revs, revs.foldl (fun nv v => if v.mtime > nv then v.mtime else nv) a = r.mtime := by
  induction revs with
  | nil =>
      intro a
      exact Or.inl rfl
  | cons v l ih =>
      intro a
      simp only [List.foldl_cons]
      rcases ih (if v.mtime > a then v.mtime else a) with h | ⟨r, hr, he⟩
      · by_cases hv : v.mtime > a
        · right
          exact ⟨v, List.mem_cons_self v l, by rw [h, if_pos hv]⟩
        · left
          rw [h, if_neg hv]
      · right
        exact ⟨r, List.mem_cons_of_mem v hr, he⟩

/-- On a non-empty revision list, newestMtime is attained by a revision and
bounds all revisions. -/
theorem newestMtime_attained (revs : List RevisionM) (h : revs ≠ []) :
    ∃ r ∈ revs, r.mtime = newestMtime revs ∧ ∀ r2 ∈ revs, r2.mtime ≤ r.mtime := by
  unfold newestMtime
  rcases foldl_mt_mem revs 0 with h0 | ⟨r, hr, he⟩
  · cases hrev : revs with
    | nil => exact absurd hrev h
    | cons v l =>
        subst hrev
        have hub := foldl_mt_ub (v :: l) 0 v (List.mem_cons_self v l)
        refine ⟨v, List.mem_cons_self v l, by omega, fun r2 h2 => ?_⟩
        have := foldl_mt_ub (v :: l) 0 r2 h2
        omega
  · refine ⟨r, hr, he.symm, fun r2 h2 => ?_⟩
    have := foldl_mt_ub revs 0 r2 h2
    omega

/-- Finding a pair by mtime in the versions insertion list, under distinct
mtimes, yields the matching revision's pair. -/
theorem find_pair_by_mtime (l : List RevisionM) (r : RevisionM) (hr : r ∈ l)
    (hnd : (l.map (fun x => x.mtime)).Nodup) :
    (l.map (fun x => (x.mtime, x.key))).find? (fun p => p.1 == r.mtime) =
      some (r.mtime, r.key) := by
  induction l with
  | nil => cases hr
  | cons v t ih =>
      rw [List.map_cons, List.find?_cons]
      rcases List.mem_cons.mp hr with h | h
      · subst h
        simp
      · have hnd' := List.nodup_cons.mp hnd
        have hvr : v.mtime ≠ r.mtime := by
          intro he
          apply hnd'.1
          show v.mtime ∈ List.map (fun x => x.mtime) t
          rw [he]
          exact List.mem_map_of_mem (fun x => x.mtime) h
        have : ((v.mtime, v.key).1 == r.mtime) = false := by
          simp [hvr]
        rw [this]
        exact ih h hnd'.2

/-- Go map lookup of a listed revision's mtime returns its key (under
distinct mtimes). -/
theorem versionsGet_mem (revs : List RevisionM) (r : RevisionM) (hr : r ∈ revs)
    (hnd : (revs.map (fun x => x.mtime)).Nodup) :
    versionsGet (buildVersions revs) r.mtime = some r.key := by
  unfold versionsGet buildVersions
  rw [← List.map_reverse]
  rw [find_pair_by_mtime revs.reverse r (List.mem_reverse.mpr hr)
    (by rw [List.map_reverse]; exact List.nodup_reverse.mpr hnd)]
  rfl

/-- Go map lookup of an unlisted mtime returns nothing. -/
theorem versionsGet_not_mem (revs : List RevisionM) (k : Nat)
    (hk : k ∉ revs.map (fun x => x.mtime)) :
    versionsGet (buildVersions revs) k = none := by
  unfold versionsGet buildVersions
  rw [List.find?_eq_none.mpr]
  · rfl
  intro p hp
  rw [List.mem_reverse] at hp
  obtain ⟨x, hx, hxp⟩ := List.mem_map.mp hp
  subst hxp
  simp only [beq_iff_eq]
  intro he
  exact hk (he ▸ List.mem_map_of_mem (fun x => x.mtime) hx)

/-- Finding a revision by key, under distinct keys, yields that revision. -/
theorem find_by_key (l : List RevisionM) (r : RevisionM) (hr : r ∈ l)
    (hnd : (l.map (fun x => x.key)).Nodup) :
    l.find? (fun x => x.key == r.key) = some r := by
  induction l with
  | nil => cases hr
  | cons v t ih =>
      rw [List.find?_cons]
      rcases List.mem_cons.mp hr with h | h
      · subst h
        simp
      · have hnd' := List.nodup_cons.mp hnd
        have hvr : v.key ≠ r.key := by
          intro he
          apply hnd'.1
          show v.key ∈ List.map (fun x => x.key) t
          rw [he]
          exact List.mem_map_of_mem (fun x => x.key) h
        have : (v.key == r.key) = false := by
          simp [hvr]
        rw [this]
        exact ih h hnd'.2

/-- The revision the restore pipeline creates for the previously live
(infected) state: the live mtime, its derived revision key, the live blob. -/
def infectedRev (nodeId : String) (st : VirusState) : RevisionM :=
  ⟨st.liveMtime, mkRevKey nodeId st.liveMtime, st.liveBlobId⟩

/-- Claim C5: for a VirusscanFinished with an empty upload id and outcome
delete, under the storage invariants (distinct revision mtimes and keys, live
mtime not among the revision mtimes): with no prior versions the resource is
trashed via Delete and then purged from the recycle bin; with prior versions
the revision with the greatest mtime becomes live and the infected revision
(the snapshot of the previously live state) is deleted again, leaving exactly
the prior revision list. -/
theorem onDemandDelete_spec (nodeId : String) (st : VirusState)
    (hmt : (st.revisions.map (fun x => x.mtime)).Nodup)
    (hkeys : (st.revisions.map (fun x => x.key)).Nodup)
    (hlive : st.liveMtime ∉ st.revisions.map (fun x => x.mtime))
    (hlivekey : mkRevKey nodeId st.liveMtime ∉ st.revisions.map (fun x => x.key)) :
    (st.revisions = [] →
      onDemandDelete nodeId st =
        ({ st with fate := .purged }, ["Delete", "PurgeRecycleItem"])) ∧
    (st.revisions ≠ [] →
      ∃ r ∈ st.revisions, (∀ r2 ∈ st.revisions, r2.mtime ≤ r.mtime) ∧
        (onDemandDelete nodeId st).1.liveBlobId = r.blobId ∧
        (onDemandDelete nodeId st).1.liveMtime = r.mtime ∧
        (onDemandDelete nodeId st).1.revisions = st.revisions ∧
        (onDemandDelete nodeId st).1.fate = st.fate) := by
  constructor
  · intro h
    simp [onDemandDelete, h]
  · intro hne
    obtain ⟨rstar, hrmem, hrmax, hub⟩ := newestMtime_attained st.revisions hne
    have hni : st.revisions.isEmpty = false := by
      cases hrev : st.revisions with
      | nil => exact absurd hrev hne
      | cons v l => rfl
    have hget : versionsGet (buildVersions st.revisions) (newestMtime st.revisions) =
        some rstar.key := by
      rw [← hrmax]
      exact versionsGet_mem st.revisions rstar hrmem hmt
    have hfind : st.revisions.find? (fun x => x.key == rstar.key) = some rstar :=
      find_by_key st.revisions rstar hrmem hkeys
    have hst1 : restoreRevision nodeId st rstar.key =
        { st with
          liveBlobId := rstar.blobId,
          liveMtime := rstar.mtime,
          revisions := st.revisions ++ [infectedRev nodeId st] } := by
      unfold restoreRevision
      rw [hfind]
      rfl
    have hfilterB : (st.revisions ++ [infectedRev nodeId st]).filter
          (fun v => (versionsGet (buildVersions st.revisions) v.mtime).isNone) =
        [infectedRev nodeId st] := by
      rw [List.filter_append]
      have hA : st.revisions.filter
          (fun v => (versionsGet (buildVersions st.revisions) v.mtime).isNone) = [] := by
        rw [List.filter_eq_nil_iff]
        intro a ha
        rw [versionsGet_mem st.revisions a ha hmt]
        simp
      rw [hA]
      simp [infectedRev, versionsGet_not_mem st.revisions st.liveMtime hlive]
    have hdelrev : (st.revisions ++ [infectedRev nodeId st]).filter
          (fun r => r.key ≠ (infectedRev nodeId st).key) = st.revisions := by
      rw [List.filter_append]
      have hA : st.revisions.filter
          (fun r => r.key ≠ (infectedRev nodeId st).key) = st.revisions := by
        rw [List.filter_eq_self]
        intro a ha
        simp only [infectedRev, decide_eq_true_eq, ne_eq]
        intro he
        exact hlivekey (he ▸ List.mem_map_of_mem (fun x => x.key) ha)
      rw [hA]
      simp
    have hpipe : (onDemandDelete nodeId st).1 =
        { st with
          liveBlobId := rstar.blobId,
          liveMtime := rstar.mtime,
          revisions := st.revisions } := by
      simp only [onDemandDelete]
      rw [if_neg (by rw [hni]; exact Bool.false_ne_true)]
      simp only [hget, Option.getD_some, hst1, List.foldl_cons, List.foldl_nil]
      simp only [hfilterB, List.foldl_cons, List.foldl_nil]
      unfold deleteRevision
      dsimp only
      rw [hdelrev]
    exact ⟨rstar, hrmem, hub, by rw [hpipe], by rw [hpipe], by rw [hpipe], by rw [hpipe]⟩

/-- The scanned resource of the C5 witness: live mtime 7 with two prior
revisions at mtimes 1 and 3. -/
def virusStateW : VirusState :=
  ⟨.livePresent, 7, "blob-infected", [⟨1, "k1", "b1"⟩, ⟨3, "k3", "b3"⟩]⟩

/-- Witness for onDemandDelete_spec: with versions at mtimes 1 and 3, the
revision at mtime 3 is restored and the infected snapshot removed. -/
theorem onDemandDelete_spec_witness :
    ((virusStateW.revisions.map (fun x => x.mtime)).Nodup ∧
      (virusStateW.revisions.map (fun x => x.key)).Nodup ∧
      virusStateW.liveMtime ∉ virusStateW.revisions.map (fun x => x.mtime) ∧
      mkRevKey "n1" virusStateW.liveMtime ∉ virusStateW.revisions.map (fun x => x.key)) ∧
    ((virusStateW.revisions = [] →
      onDemandDelete "n1" virusStateW =
        ({ virusStateW with fate := .purged }, ["Delete", "PurgeRecycleItem"])) ∧
    (virusStateW.revisions ≠ [] →
      ∃ r ∈ virusStateW.revisions,
        (∀ r2 ∈ virusStateW.revisions, r2.mtime ≤ r.mtime) ∧
        (onDemandDelete "n1" virusStateW).1.liveBlobId = r.blobId ∧
        (onDemandDelete "n1" virusStateW).1.liveMtime = r.mtime ∧
        (onDemandDelete "n1" virusStateW).1.revisions = virusStateW.revisions ∧
        (onDemandDelete "n1" virusStateW).1.fate = virusStateW.fate)) :=
  ⟨⟨by decide, by decide, by decide, by decide⟩,
    onDemandDelete_spec "n1" virusStateW (by decide) (by decide) (by decide) (by decide)⟩
